import Mathlib

/-!
Shallow embedding of the band/musician domain model from
`music/musician.py`, `music/enums.py` and `music/band.py`.

Python strings are modelled as `List Char` (`PyStr`), Python `date`
values as explicit year/month/day triples, and arbitrary Python
arguments (which may fail `isinstance` checks) as small inductive
types.  Each embedded definition is translated from the corresponding
Python method; comments cite the source location.
-/

abbrev PyStr := List Char

/-- The `Vocals` enum from `music/enums.py`. -/
inductive Vocals where
  | LEAD_VOCALS
  | BACKGROUND_VOCALS
deriving DecidableEq, Repr

/-- The `.value` attribute of each `Vocals` member (`enums.py`, lines 18-21). -/
def Vocals.value : Vocals → PyStr
  | .LEAD_VOCALS => "lead vocals".toList
  | .BACKGROUND_VOCALS => "background vocals".toList

/-- The `Instrument` enum from `music/enums.py`. -/
inductive Instrument where
  | LEAD_GUITAR
  | RHYTHM_GUITAR
  | BASS
  | DRUMS
  | KEYBOARD
  | VOCALS
deriving DecidableEq, Repr

/-- The `.value` attribute of each `Instrument` member (`enums.py`, lines 8-15). -/
def Instrument.value : Instrument → PyStr
  | .LEAD_GUITAR => "lead guitar".toList
  | .RHYTHM_GUITAR => "rhythm guitar".toList
  | .BASS => "bass".toList
  | .DRUMS => "drums".toList
  | .KEYBOARD => "keyboards".toList
  | .VOCALS => "vocals".toList

/-- A Python value passed where a string is expected: either an actual
`str`, or one of the non-string values used in the scripts (`int`,
`None`).  `isinstance(x, str)` holds exactly for the `str` constructor. -/
inductive PyArg where
  | str (s : PyStr)
  | int (n : Int)
  | noneVal
deriving DecidableEq, Repr

/-- A musician object: one of the four concrete classes of
`music/musician.py` (`Musician`, `Singer`, `Songwriter`,
`SingerSongwriter`) together with its instance attributes.
The `vocals` / `instrument` attributes hold `None` (`Option.none`)
when the constructor argument failed the `isinstance` check. -/
inductive Musician where
  | plain (name : PyStr) (is_band_member : Bool)
  | singer (name : PyStr) (is_band_member : Bool) (vocals : Option Vocals)
  | songwriter (name : PyStr) (is_band_member : Bool) (instrument : Option Instrument)
  | singerSongwriter (name : PyStr) (is_band_member : Bool)
      (vocals : Option Vocals) (instrument : Option Instrument)
deriving DecidableEq, Repr

/-- The `name` attribute (property backed by `_Musician__name`). -/
def Musician.name : Musician → PyStr
  | .plain n _ => n
  | .singer n _ _ => n
  | .songwriter n _ _ => n
  | .singerSongwriter n _ _ _ => n

/-- The `is_band_member` attribute. -/
def Musician.is_band_member : Musician → Bool
  | .plain _ b => b
  | .singer _ b _ => b
  | .songwriter _ b _ => b
  | .singerSongwriter _ b _ _ => b

/-- The four concrete Python classes of the hierarchy. -/
inductive PyClass where
  | cMusician
  | cSinger
  | cSongwriter
  | cSingerSongwriter
deriving DecidableEq, Repr

/-- `type(m)` for a musician object. -/
def Musician.cls : Musician → PyClass
  | .plain _ _ => .cMusician
  | .singer _ _ _ => .cSinger
  | .songwriter _ _ _ => .cSongwriter
  | .singerSongwriter _ _ _ _ => .cSingerSongwriter

/-- Keys of a musician's `__dict__`: the mangled `_Musician__name`,
`is_band_member`, `vocals` and `instrument` attribute names. -/
inductive AttrKey where
  | nameK
  | ibmK
  | vocalsK
  | instrumentK
deriving DecidableEq, Repr

/-- Values stored in a musician's `__dict__`. -/
inductive PyVal where
  | str (s : PyStr)
  | bool (b : Bool)
  | voc (v : Option Vocals)
  | inst (i : Option Instrument)
deriving DecidableEq, Repr

/-- The `__dict__` of a musician object, as an association list in
attribute-insertion order.  For `SingerSongwriter` the MRO is
`SingerSongwriter, Singer, Songwriter, Musician`, so `instrument` is
set (by `Songwriter.__init__`) before `vocals` (by `Singer.__init__`). -/
def Musician.dict : Musician → List (AttrKey × PyVal)
  | .plain n b => [(.nameK, .str n), (.ibmK, .bool b)]
  | .singer n b v => [(.nameK, .str n), (.ibmK, .bool b), (.vocalsK, .voc v)]
  | .songwriter n b i => [(.nameK, .str n), (.ibmK, .bool b), (.instrumentK, .inst i)]
  | .singerSongwriter n b v i =>
      [(.nameK, .str n), (.ibmK, .bool b), (.instrumentK, .inst i), (.vocalsK, .voc v)]

/-- Lookup in an attribute dictionary. -/
def lookupAttr (k : AttrKey) : List (AttrKey × PyVal) → Option PyVal
  | [] => none
  | (k2, v) :: rest => if k = k2 then some v else lookupAttr k rest

/-- Python dict equality: same keys, and equal values at every key. -/
def dictBEq (d1 d2 : List (AttrKey × PyVal)) : Bool :=
  d1.all (fun kv => decide (lookupAttr kv.1 d2 = some kv.2)) &&
  d2.all (fun kv => decide (lookupAttr kv.1 d1 = some kv.2))

/-- `isinstance(m, Musician)` — true for every object of the hierarchy. -/
def isinstMusician (_ : Musician) : Bool := true

/-- `isinstance(m, Singer)` — true for `Singer` and `SingerSongwriter`. -/
def isinstSinger (m : Musician) : Bool :=
  match m.cls with
  | .cSinger => true
  | .cSingerSongwriter => true
  | _ => false

/-- `isinstance(m, Songwriter)` — true for `Songwriter` and `SingerSongwriter`. -/
def isinstSongwriter (m : Musician) : Bool :=
  match m.cls with
  | .cSongwriter => true
  | .cSingerSongwriter => true
  | _ => false

/-- `isinstance(m, SingerSongwriter)`. -/
def isinstSingerSongwriter (m : Musician) : Bool :=
  match m.cls with
  | .cSingerSongwriter => true
  | _ => false

/-- The `__eq__` method that Python dispatches to on `self`:
`Musician.__eq__` (musician.py lines 42-46) for plain musicians, and the
`__dict__`-comparing overrides of `Singer` (line 252), `Songwriter`
(line 301) and `SingerSongwriter` (line 360) for the subclasses. -/
def dunderEq (self other : Musician) : Bool :=
  match self.cls with
  | .cMusician =>
      isinstMusician other && decide (self.name = other.name) &&
        (self.is_band_member == other.is_band_member)
  | .cSinger => if isinstSinger other then dictBEq self.dict other.dict else false
  | .cSongwriter => if isinstSongwriter other then dictBEq self.dict other.dict else false
  | .cSingerSongwriter =>
      if isinstSingerSongwriter other then dictBEq self.dict other.dict else false

/-- Whether `sub` is a proper subclass of `sup` in the hierarchy. -/
def properSubclass (sub sup : PyClass) : Bool :=
  match sub, sup with
  | .cSinger, .cMusician => true
  | .cSongwriter, .cMusician => true
  | .cSingerSongwriter, .cMusician => true
  | .cSingerSongwriter, .cSinger => true
  | .cSingerSongwriter, .cSongwriter => true
  | _, _ => false

/-- Python evaluation of `a == b` for two musician objects: when the
right operand's class is a proper subclass of the left's, the reflected
`__eq__` is tried first; none of the `__eq__` methods here ever returns
`NotImplemented`, so the first method called decides the result. -/
def pyEq (a b : Musician) : Bool :=
  if properSubclass b.cls a.cls then dunderEq b a else dunderEq a b

/-- The `name` property setter of `Musician` (musician.py lines 75-77):
`self.__name = name if isinstance(name, str) else 'unknown'`. -/
def name_setter (a : PyArg) : PyStr :=
  match a with
  | .str s => s
  | _ => "unknown".toList

/-- `Musician.__init__` (musician.py lines 31-33); the assignment
`self.name = name` goes through the property setter. -/
def Musician_init (nameArg : PyArg) (ibm : Bool) : Musician :=
  .plain (name_setter nameArg) ibm

/-- Assigning to the `name` attribute of an existing musician object:
the inherited property setter replaces the stored name. -/
def setName : Musician → PyArg → Musician
  | .plain _ b, a => .plain (name_setter a) b
  | .singer _ b v, a => .singer (name_setter a) b v
  | .songwriter _ b i, a => .songwriter (name_setter a) b i
  | .singerSongwriter _ b v i, a => .singerSongwriter (name_setter a) b v i

/-- An argument passed where a member of the enumeration `α` is
expected: either an actual member, or any other Python value. -/
inductive EnumArg (α : Type) where
  | val (a : α)
  | nonVal (junk : PyArg)
deriving DecidableEq, Repr

/-- `Singer.__init__` (musician.py lines 236-238):
`self.vocals = vocals if isinstance(vocals, Vocals) else None`. -/
def Singer_init (vocals : EnumArg Vocals) (nameArg : PyArg) (ibm : Bool) : Musician :=
  .singer (name_setter nameArg) ibm
    (match vocals with
     | .val v => some v
     | .nonVal _ => none)

/-- `Songwriter.__init__` (musician.py lines 285-287):
`self.instrument = instrument if isinstance(instrument, Instrument) else None`. -/
def Songwriter_init (instrument : EnumArg Instrument) (nameArg : PyArg) (ibm : Bool) : Musician :=
  .songwriter (name_setter nameArg) ibm
    (match instrument with
     | .val v => some v
     | .nonVal _ => none)

/-- `Musician.__str__` (musician.py lines 38-40). -/
def musician_base_str (n : PyStr) (b : Bool) : PyStr :=
  n ++ " ".toList ++ (if b then "(band member)".toList else "(solo musician)".toList)

/-- The suffix added by `Singer.__str__` (musician.py lines 240-242):
`', ' + self.vocals.value` if `isinstance(self.vocals, Vocals)` else `''`. -/
def vocalsSuffix : Option Vocals → PyStr
  | some v => ", ".toList ++ v.value
  | none => []

/-- The suffix added by `Songwriter.__str__` (musician.py lines 289-291). -/
def instrumentSuffix : Option Instrument → PyStr
  | some i => ", ".toList ++ i.value
  | none => []

/-- `str(m)` for a musician object.  For `SingerSongwriter` the MRO makes
`Singer.__str__` call `Songwriter.__str__`, so the instrument suffix is
appended before the vocals suffix. -/
def musician_str : Musician → PyStr
  | .plain n b => musician_base_str n b
  | .singer n b v => musician_base_str n b ++ vocalsSuffix v
  | .songwriter n b i => musician_base_str n b ++ instrumentSuffix i
  | .singerSongwriter n b v i => musician_base_str n b ++ instrumentSuffix i ++ vocalsSuffix v

/-- First occurrence of the two-character separator `" ("` in a string:
`findSub s = some (pre, rest)` means `s = pre ++ " (" ++ rest` with the
separator not occurring in `pre` (Python `s.split(' (')` yields `pre`
as element 0 and a prefix of `rest` as element 1);
`findSub s = none` means the separator does not occur in `s`. -/
def findSub : PyStr → Option (PyStr × PyStr)
  | [] => none
  | [_] => none
  | c1 :: c2 :: rest =>
    if c1 = ' ' ∧ c2 = '(' then some ([], rest)
    else
      match findSub (c2 :: rest) with
      | some (b, a) => some (c1 :: b, a)
      | none => none

/-- Python `s.startswith('b')`. -/
def startsB : PyStr → Bool
  | [] => false
  | c :: _ => decide (c = 'b')

/-- `Musician.from_str` (musician.py lines 106-116):
`n = musician_string.split(' (')[0]`,
`bm = musician_string.split(' (')[1].startswith('b')`,
`return cls(n, bm)`.  When the separator does not occur, indexing
`[1]` raises `IndexError`, modelled by `none`.  The element at index 1
of the split is the text between the first and second occurrence of
the separator (or everything after the first when there is no second). -/
def musician_from_str (s : PyStr) : Option Musician :=
  match findSub s with
  | none => none
  | some (p0, rest) =>
    let p1 :=
      match findSub rest with
      | some (b, _) => b
      | none => rest
    some (Musician_init (.str p0) (startsB p1))

/-- A Python `datetime.date`, as a year/month/day triple. -/
structure PyDate where
  year : Nat
  month : Nat
  day : Nat
deriving DecidableEq, Repr

/-- Python comparison `a <= b` on dates: lexicographic on (year, month, day). -/
def dateLe (a b : PyDate) : Bool :=
  if a.year = b.year then
    (if a.month = b.month then decide (a.day ≤ b.day) else decide (a.month < b.month))
  else decide (a.year < b.year)

/-- `Band.is_date_valid` (band.py lines 79-85), with the impure call
`date.today()` made an explicit parameter:
`date(1960, 1, 1) <= d <= date.today() if isinstance(d, date) else False`
(our `d` is always a date, so the `isinstance` guard holds). -/
def is_date_valid (today d : PyDate) : Bool :=
  dateLe ⟨1960, 1, 1⟩ d && dateLe d today

/-- The `BandNameError` exception (band.py lines 248-254); it stores the
offending `name` argument. -/
structure BandNameError where
  name : PyArg
deriving DecidableEq, Repr

/-- A constructed `Band` object (band.py lines 35-45). -/
structure Band where
  name : PyStr
  members : List Musician
  start : PyDate
  end_ : PyDate
deriving DecidableEq, Repr

/-- `Band.__init__` (band.py lines 35-45):
`band_name_error = not isinstance(name, str) or (len(name) < 2)`;
raises `BandNameError(name)` when that holds, otherwise stores
`name`, `members`, `start`, `end` as given. -/
def Band_init (nameArg : PyArg) (members : List Musician) (start end_ : PyDate) :
    Except BandNameError Band :=
  match nameArg with
  | .str s => if s.length < 2 then .error ⟨nameArg⟩ else .ok ⟨s, members, start, end_⟩
  | _ => .error ⟨nameArg⟩

/-- Python `x in t` for a tuple of musicians (`t.__contains__(x)` compares
each element to `x` with `==`). -/
def memContains (ms : List Musician) (x : Musician) : Bool :=
  ms.any (fun e => pyEq e x)

/-- `Band.__eq__` (band.py lines 57-77) specialised to a `Band` right
operand (`t = isinstance(other, Band)` is then true):
name equality, both-ways member containment, and equality of the
start and end years. -/
def Band_eq (self other : Band) : Bool :=
  let t := true
  let n := decide (self.name = other.name)
  let m := other.members.all (fun x => memContains self.members x) &&
           self.members.all (fun x => memContains other.members x)
  let s := decide (self.start.year = other.start.year)
  let e := decide (self.end_.year = other.end_.year)
  t && n && m && s && e

/-- `str(n)` for a year. -/
def natStr (n : Nat) : PyStr := (Nat.repr n).toList

/-- Python `sep.join(xs)`. -/
def joinSep (sep : PyStr) : List PyStr → PyStr
  | [] => []
  | [x] => x
  | x :: y :: rest => x ++ sep ++ joinSep sep (y :: rest)

/-- `Band.__str__` (band.py lines 49-55):
`n = name + (': ' if members else ' ')`,
`m = ', '.join(str(m) for m in members) if members else ''`,
result `f'{n}{m} ({start.year}-{end.year})'`. -/
def band_str (b : Band) : PyStr :=
  let n := b.name ++ (if b.members = [] then " ".toList else ": ".toList)
  let m := if b.members = [] then [] else joinSep ", ".toList (b.members.map musician_str)
  n ++ m ++ " (".toList ++ natStr b.start.year ++ "-".toList ++ natStr b.end_.year ++ ")".toList

/-- The iteration-relevant state of a band object: its members tuple and
the iterator counter `self.__i` (band.py lines 87-105); the counter is
stored on the band object itself. -/
structure BandIterState where
  members : List Musician
  i : Nat
deriving DecidableEq, Repr

/-- `Band.__iter__` (band.py lines 87-97): resets the counter to 0 and
returns the band itself. -/
def band_iter (s : BandIterState) : BandIterState :=
  ⟨s.members, 0⟩

/-- Outcome of one `next()` call. -/
inductive NextOutcome where
  | yielded (m : Musician) (s : BandIterState)
  | stopIteration
  | indexError
deriving DecidableEq, Repr

/-- `Band.__next__` (band.py lines 99-105):
`if self.__i <= len(self.members): m = self.members[self.__i]; self.__i += 1; return m`
`else: raise StopIteration`.  Indexing the members tuple at an
out-of-range position raises `IndexError`. -/
def band_next (s : BandIterState) : NextOutcome :=
  if s.i ≤ s.members.length then
    match s.members.get? s.i with
    | some m => .yielded m ⟨s.members, s.i + 1⟩
    | none => .indexError
  else .stopIteration

/-- How a full iteration run terminated. -/
inductive DrainStop where
  | stopped
  | indexErr
  | outOfFuel
deriving DecidableEq, Repr

/-- Repeatedly call `next()` (with fuel), collecting the yielded members
and recording how the run terminated. -/
def drain : Nat → BandIterState → List Musician × DrainStop
  | 0, _ => ([], .outOfFuel)
  | fuel + 1, s =>
    match band_next s with
    | .yielded m s2 =>
        let r := drain fuel s2
        (m :: r.1, r.2)
    | .stopIteration => ([], .stopped)
    | .indexError => ([], .indexErr)

/-- An arbitrary Python object as seen by `Band.__eq__`: whether it is a
`Band` instance, and which of the four attributes read by the method it
possesses. -/
structure PyBandLike where
  isBand : Bool
  nameAttr : Option PyStr
  membersAttr : Option (List Musician)
  startAttr : Option PyDate
  endAttr : Option PyDate
deriving DecidableEq, Repr

/-- An `AttributeError` naming the missing attribute. -/
structure PyAttributeError where
  attr : PyStr
deriving DecidableEq, Repr

/-- `Band.__eq__` (band.py lines 57-77) on an arbitrary right operand.
The method body evaluates, in order, `isinstance(other, Band)`,
`other.name`, `other.members`, `other.start.year`, `other.end.year`
unconditionally before combining the five booleans, so a missing
attribute raises `AttributeError` before the type test can matter. -/
def Band_eq_dyn (self : Band) (other : PyBandLike) : Except PyAttributeError Bool :=
  let t := other.isBand
  match other.nameAttr with
  | none => .error ⟨"name".toList⟩
  | some oname =>
    let n := decide (self.name = oname)
    match other.membersAttr with
    | none => .error ⟨"members".toList⟩
    | some omembers =>
      let m := omembers.all (fun x => memContains self.members x) &&
               self.members.all (fun x => memContains omembers x)
      match other.startAttr with
      | none => .error ⟨"start".toList⟩
      | some ostart =>
        let s := decide (self.start.year = ostart.year)
        match other.endAttr with
        | none => .error ⟨"end".toList⟩
        | some oend =>
          let e := decide (self.end_.year = oend.year)
          .ok (t && n && m && s && e)

/-- The concrete band of the display-string scenario (spec section 8):
`Band('The Beatles', Musician('John Lennon'), Musician('Paul McCartney'),
start=date(1962, 10, 5), end=date(1970, 4, 11))`. -/
def theBeatles : Band :=
  ⟨"The Beatles".toList,
   [.plain "John Lennon".toList true, .plain "Paul McCartney".toList true],
   ⟨1962, 10, 5⟩, ⟨1970, 4, 11⟩⟩

/-- Display format for a band with members, as the spec states it:
`"<name>: <m1>, <m2>, ... (<startYear>-<endYear>)"`. -/
def bandDisplayFull (b : Band) : PyStr :=
  b.name ++ ": ".toList ++ joinSep ", ".toList (b.members.map musician_str) ++
    " (".toList ++ natStr b.start.year ++ "-".toList ++ natStr b.end_.year ++ ")".toList

/-- Display format for a band without members: the colon and the member
list are omitted (the code keeps the space that replaced the colon). -/
def bandDisplayEmpty (b : Band) : PyStr :=
  b.name ++ " ".toList ++
    " (".toList ++ natStr b.start.year ++ "-".toList ++ natStr b.end_.year ++ ")".toList

/-- Python `==` on musician objects coincides with structural equality
of the embedded values: same concrete class and same attributes. -/
theorem pyEq_iff_eq (a b : Musician) : pyEq a b = true ↔ a = b := by
  cases a <;> cases b <;>
    simp [pyEq, dunderEq, properSubclass, Musician.cls, Musician.name,
      Musician.is_band_member, Musician.dict, dictBEq, lookupAttr,
      isinstMusician, isinstSinger, isinstSongwriter, isinstSingerSongwriter,
      List.all, and_assoc] <;>
    tauto

/-- Membership in a members tuple, tested with Python `==`, is plain
membership of the embedded value. -/
theorem memContains_iff (ms : List Musician) (x : Musician) :
    memContains ms x = true ↔ x ∈ ms := by
  simp [memContains, List.any_eq_true, pyEq_iff_eq]

/-- `dateLe` is reflexive. -/
theorem dateLe_refl (d : PyDate) : dateLe d d = true := by
  simp [dateLe]

/-- Draining a band iterator whose counter has `k` steps left yields the
remaining members and then hits `IndexError` (never `StopIteration`). -/
theorem drain_eq_of_counter (k : Nat) :
    ∀ (i : Nat) (ms : List Musician), i + k = ms.length →
      drain (k + 1) ⟨ms, i⟩ = (ms.drop i, DrainStop.indexErr) := by
  induction k with
  | zero =>
      intro i ms h
      have hi : i = ms.length := by omega
      subst hi
      have hnone : ms.get? ms.length = none := by simp
      show drain 1 ⟨ms, ms.length⟩ = (ms.drop ms.length, DrainStop.indexErr)
      simp [drain, band_next, hnone]
  | succ k ih =>
      intro i ms h
      have hlt : i < ms.length := by omega
      have hget : ms.get? i = some ms[i] := by
        simp [List.get?_eq_getElem?, List.getElem?_eq_getElem hlt]
      have hbn : band_next ⟨ms, i⟩ = NextOutcome.yielded ms[i] ⟨ms, i + 1⟩ := by
        simp [band_next, Nat.le_of_lt hlt, hget, List.getElem?_eq_getElem hlt]
      have hrec := ih (i + 1) ms (by omega)
      rw [drain, hbn]
      simp only [hrec, List.drop_eq_getElem_cons hlt]

/-- Appending `" (" ++ t` to a string without the separator makes the
appended occurrence the first one. -/
theorem findSub_append : (name t : PyStr) → findSub name = none →
    findSub (name ++ ' ' :: '(' :: t) = some (name, t)
  | [], t, _ => by
      show findSub (' ' :: '(' :: t) = some ([], t)
      rw [findSub, if_pos ⟨rfl, rfl⟩]
  | [c], t, _ => by
      show findSub (c :: ' ' :: '(' :: t) = some ([c], t)
      rw [findSub, if_neg (fun hh => absurd hh.2 (by decide)),
        findSub, if_pos ⟨rfl, rfl⟩]
  | c1 :: c2 :: cs, t, h => by
      rw [findSub] at h
      by_cases hc : c1 = ' ' ∧ c2 = '('
      · rw [if_pos hc] at h
        exact absurd h (by simp)
      · rw [if_neg hc] at h
        have hnone : findSub (c2 :: cs) = none := by
          cases hfs : findSub (c2 :: cs) with
          | none => rfl
          | some p =>
              rw [hfs] at h
              exact absurd h (by simp)
        show findSub (c1 :: c2 :: (cs ++ ' ' :: '(' :: t)) = some (c1 :: c2 :: cs, t)
        rw [findSub, if_neg hc,
          show (c2 :: (cs ++ ' ' :: '(' :: t)) = ((c2 :: cs) ++ ' ' :: '(' :: t) from rfl,
          findSub_append (c2 :: cs) t hnone]

/-- Soundness of `findSub`: a hit decomposes the string at the first
occurrence of the separator, and the prefix contains no occurrence. -/
theorem findSub_some : (s pre rest : PyStr) → findSub s = some (pre, rest) →
    s = pre ++ ' ' :: '(' :: rest ∧ findSub pre = none
  | [], pre, rest, h => by exact absurd h (by simp [findSub])
  | [c], pre, rest, h => by exact absurd h (by simp [findSub])
  | c1 :: c2 :: cs, pre, rest, h => by
      rw [findSub] at h
      by_cases hc : c1 = ' ' ∧ c2 = '('
      · rw [if_pos hc] at h
        simp only [Option.some.injEq, Prod.mk.injEq] at h
        obtain ⟨h1, h2⟩ := h
        subst h1
        subst h2
        obtain ⟨hs, hp⟩ := hc
        subst hs
        subst hp
        exact ⟨rfl, rfl⟩
      · rw [if_neg hc] at h
        cases hfs : findSub (c2 :: cs) with
        | none =>
            rw [hfs] at h
            simp at h
        | some p =>
            obtain ⟨b, a⟩ := p
            rw [hfs] at h
            simp only [Option.some.injEq, Prod.mk.injEq] at h
            obtain ⟨h1, h2⟩ := h
            subst h1
            subst h2
            obtain ⟨hdec, hbn⟩ := findSub_some (c2 :: cs) b a hfs
            refine ⟨by rw [List.cons_append, ← hdec], ?_⟩
            cases b with
            | nil => rfl
            | cons d ds =>
                have hd : c2 = d := by
                  rw [List.cons_append] at hdec
                  injection hdec
                subst hd
                rw [findSub, if_neg hc, hbn]

/-- Element 1 of the Python split (the text between the first and second
occurrence of the separator) starts with `'b'` exactly when the whole
remainder after the first occurrence does. -/
theorem startsB_second_split (rest : PyStr) :
    startsB (match findSub rest with | some (b, _) => b | none => rest) = startsB rest := by
  cases hfs : findSub rest with
  | none => rfl
  | some p =>
      obtain ⟨b, a⟩ := p
      obtain ⟨hdec, -⟩ := findSub_some rest b a hfs
      subst hdec
      cases b with
      | nil => rfl
      | cons d ds => rfl

/-- C1: iterating a Band (`__iter__` then repeated `__next__`,
band.py lines 87-105) yields exactly the members in insertion order —
from any prior counter state, so a fresh iteration after exhaustion
again yields all members — but the run then terminates with
`IndexError` raised by `self.members[self.__i]` (the guard
`self.__i <= len(self.members)` is an off-by-one), not with the
`StopIteration` signal of the iteration protocol. -/
theorem band_iteration_yields_then_indexError (ms : List Musician) (i0 : Nat) :
    drain (ms.length + 1) (band_iter ⟨ms, i0⟩) = (ms, DrainStop.indexErr) := by
  have h := drain_eq_of_counter ms.length 0 ms (by omega)
  simpa [band_iter] using h

/-- C1 evaluation at the failing input: a 4-member band (the Beatles
line-up of band.py line 114) yields its 4 members and then the 5th
`next()` call raises `IndexError` instead of `StopIteration`. -/
theorem band_iteration_beatles_bug :
    drain 5 (band_iter ⟨[Musician.plain "John Lennon".toList true,
        Musician.plain "Paul McCartney".toList true,
        Musician.plain "George Harrison".toList true,
        Musician.plain "Ringo Starr".toList true], 0⟩) =
      ([Musician.plain "John Lennon".toList true,
        Musician.plain "Paul McCartney".toList true,
        Musician.plain "George Harrison".toList true,
        Musician.plain "Ringo Starr".toList true], DrainStop.indexErr) ∧
    DrainStop.indexErr ≠ DrainStop.stopped := by
  exact ⟨by decide, by decide⟩

/-- C2: Python `==` on two musician objects holds exactly when both have
the same concrete class, the same name, the same band-membership flag
and the same specialization fields (structural equality of the embedded
values); in particular a plain `Musician` never equals a `Singer`,
`Songwriter` or `SingerSongwriter`, whatever the attribute values. -/
theorem musician_equality_structural :
    (∀ a b : Musician, pyEq a b = true ↔ a = b)
  ∧ (∀ (n n2 : PyStr) (bm bm2 : Bool) (v : Option Vocals) (i : Option Instrument),
      pyEq (.plain n bm) (.singer n2 bm2 v) = false ∧
      pyEq (.plain n bm) (.songwriter n2 bm2 i) = false ∧
      pyEq (.plain n bm) (.singerSongwriter n2 bm2 v i) = false) := by
  refine ⟨pyEq_iff_eq, fun n n2 bm bm2 v i => ?_⟩
  refine ⟨?_, ?_, ?_⟩ <;>
    (rw [← Bool.not_eq_true, pyEq_iff_eq]; simp)

/-- C3: `Band.__init__` (band.py lines 35-45) raises `BandNameError`
carrying the offending name exactly when the name argument is not a
string of length at least 2 — for every member list and date pair —
and otherwise stores name, members, start and end unchanged. -/
theorem band_construction_validation (nameArg : PyArg) (ms : List Musician)
    (s e : PyDate) :
    (Band_init nameArg ms s e = Except.error ⟨nameArg⟩ ↔
      ¬ ∃ t, nameArg = PyArg.str t ∧ 2 ≤ t.length)
  ∧ (∀ t, nameArg = PyArg.str t → 2 ≤ t.length →
      Band_init nameArg ms s e = Except.ok ⟨t, ms, s, e⟩) := by
  cases nameArg with
  | str t =>
      by_cases hlen : t.length < 2
      · simp [Band_init, hlen]
      · simp [Band_init, hlen]
  | int n => simp [Band_init]
  | noneVal => simp [Band_init]

/-- C3 witness: a valid two-character name constructs successfully. -/
theorem band_construction_validation_witness :
    Band_init (PyArg.str "ab".toList) [] ⟨1962, 10, 5⟩ ⟨1970, 4, 11⟩ =
      Except.ok ⟨"ab".toList, [], ⟨1962, 10, 5⟩, ⟨1970, 4, 11⟩⟩ :=
  (band_construction_validation (PyArg.str "ab".toList) [] ⟨1962, 10, 5⟩
    ⟨1970, 4, 11⟩).2 "ab".toList rfl (by decide)

/-- C4: `Band.__eq__` (band.py lines 57-77) holds exactly for equal
names, equal start years, equal end years and both-ways element-wise
containment of the member sequences; consequently it is independent of
member order, e.g. invariant under reversing the member sequence. -/
theorem band_equality_member_order :
    (∀ a b : Band, Band_eq a b = true ↔
      (a.name = b.name ∧ a.start.year = b.start.year ∧ a.end_.year = b.end_.year ∧
        (∀ x ∈ a.members, x ∈ b.members) ∧ (∀ x ∈ b.members, x ∈ a.members)))
  ∧ (∀ (nm : PyStr) (ms : List Musician) (s e : PyDate),
      Band_eq ⟨nm, ms, s, e⟩ ⟨nm, ms.reverse, s, e⟩ = true) := by
  constructor
  · intro a b
    simp [Band_eq, List.all_eq_true, memContains_iff]
    tauto
  · intro nm ms s e
    simp [Band_eq, List.all_eq_true, memContains_iff, List.mem_reverse]

/-- C5: `Band.is_date_valid` (band.py lines 79-85), with `date.today()`
as an explicit parameter, is the pure predicate
`1960-01-01 ≤ d ∧ d ≤ today`; in particular it rejects 1959-12-31,
accepts 1960-01-01 and today itself (whenever today is on or after
1960-01-01, as it is in reality), and rejects every date after today. -/
theorem is_date_valid_spec (today d : PyDate) :
    (is_date_valid today d = true ↔
      (dateLe ⟨1960, 1, 1⟩ d = true ∧ dateLe d today = true))
  ∧ is_date_valid today ⟨1959, 12, 31⟩ = false
  ∧ (dateLe ⟨1960, 1, 1⟩ today = true →
      is_date_valid today ⟨1960, 1, 1⟩ = true ∧ is_date_valid today today = true)
  ∧ (dateLe d today = false → is_date_valid today d = false) := by
  refine ⟨by simp [is_date_valid], ?_, ?_, ?_⟩
  · simp [is_date_valid, dateLe]
  · intro h
    exact ⟨by simp [is_date_valid, dateLe_refl, h], by simp [is_date_valid, dateLe_refl, h]⟩
  · intro h
    simp [is_date_valid, h]

/-- C5 witness: with today = 2026-10-12, the validator accepts
1960-01-01 and today, and rejects the future date 2027-01-01. -/
theorem is_date_valid_spec_witness :
    is_date_valid ⟨2026, 10, 12⟩ ⟨1960, 1, 1⟩ = true ∧
    is_date_valid ⟨2026, 10, 12⟩ ⟨2026, 10, 12⟩ = true ∧
    is_date_valid ⟨2026, 10, 12⟩ ⟨2027, 1, 1⟩ = false := by
  obtain ⟨-, -, h3, h4⟩ := is_date_valid_spec ⟨2026, 10, 12⟩ ⟨2027, 1, 1⟩
  exact ⟨(h3 (by decide)).1, (h3 (by decide)).2, h4 (by decide)⟩

/-- C6: `Band.__str__` (band.py lines 49-55) produces
`"<name>: <m1>, <m2>, ... (<startYear>-<endYear>)"`, omitting the colon
and the member list when there are no members (the space that replaced
the colon remains); on the concrete Beatles band of the spec it yields
exactly the documented string. -/
theorem band_display_string :
    (∀ b : Band, band_str b =
      if b.members = [] then bandDisplayEmpty b else bandDisplayFull b)
  ∧ band_str theBeatles =
      "The Beatles: John Lennon (band member), Paul McCartney (band member) (1962-1970)".toList := by
  constructor
  · intro b
    by_cases h : b.members = [] <;>
      simp [band_str, bandDisplayEmpty, bandDisplayFull, h]
  · decide

/-- C7: `Musician.from_str` (musician.py lines 106-116) splits at the
first occurrence of `" ("`, takes the prefix as the name, and sets the
band-membership flag to whether the remainder starts with `'b'`;
hence for every plain musician whose name contains no `" ("`, parsing
its own display string returns a musician equal to the original. -/
theorem from_str_parse_round_trip :
    (∀ s pre rest, findSub s = some (pre, rest) →
      s = pre ++ ' ' :: '(' :: rest ∧ findSub pre = none ∧
      musician_from_str s = some (.plain pre (startsB rest)))
  ∧ (∀ (nm : PyStr) (ibm : Bool), findSub nm = none →
      musician_from_str (musician_str (.plain nm ibm)) = some (.plain nm ibm) ∧
      pyEq (.plain nm ibm) (.plain nm ibm) = true) := by
  constructor
  · intro s pre rest hfs
    obtain ⟨hdec, hpre⟩ := findSub_some s pre rest hfs
    refine ⟨hdec, hpre, ?_⟩
    simp only [musician_from_str, hfs]
    rw [startsB_second_split rest]
    rfl
  · intro nm ibm hnone
    refine ⟨?_, (pyEq_iff_eq _ _).mpr rfl⟩
    cases ibm with
    | false =>
        have hshape : musician_str (.plain nm false) =
            nm ++ ' ' :: '(' :: "solo musician)".toList := by
          simp [musician_str, musician_base_str]
        rw [hshape]
        have happ := findSub_append nm "solo musician)".toList hnone
        simp only [musician_from_str, happ]
        rw [startsB_second_split]
        rfl
    | true =>
        have hshape : musician_str (.plain nm true) =
            nm ++ ' ' :: '(' :: "band member)".toList := by
          simp [musician_str, musician_base_str]
        rw [hshape]
        have happ := findSub_append nm "band member)".toList hnone
        simp only [musician_from_str, happ]
        rw [startsB_second_split]
        rfl

/-- C7 witness: the round trip at a concrete musician whose name has no
occurrence of the separator. -/
theorem from_str_parse_round_trip_witness :
    musician_from_str (musician_str (.plain "John Lennon".toList true)) =
      some (.plain "John Lennon".toList true) :=
  (from_str_parse_round_trip.2 "John Lennon".toList true (by decide)).1

/-- C8: constructing a `Musician` never fails on a non-string name —
the property setter (musician.py lines 75-77) silently substitutes the
sentinel `'unknown'` — a string name is stored as given, and assigning
to the `name` attribute after construction applies the same rule. -/
theorem musician_name_sentinel :
    (∀ (n : Int) (ibm : Bool) (m : Musician),
      Musician_init (.int n) ibm = .plain "unknown".toList ibm ∧
      (setName m (.int n)).name = "unknown".toList)
  ∧ (∀ (ibm : Bool) (m : Musician),
      Musician_init .noneVal ibm = .plain "unknown".toList ibm ∧
      (setName m .noneVal).name = "unknown".toList)
  ∧ (∀ (s : PyStr) (ibm : Bool) (m : Musician),
      Musician_init (.str s) ibm = .plain s ibm ∧
      (setName m (.str s)).name = s) := by
  refine ⟨fun n ibm m => ⟨rfl, ?_⟩, fun ibm m => ⟨rfl, ?_⟩, fun s ibm m => ⟨rfl, ?_⟩⟩ <;>
    cases m <;> rfl

/-- C9: `Band.__eq__` (band.py lines 57-77) reads `other.name`,
`other.members`, `other.start.year` and `other.end.year` before the
`isinstance` test can matter, so comparing a band with any operand
lacking one of these attributes raises `AttributeError` instead of
returning a boolean. -/
theorem band_eq_nonband_attribute_error (self : Band) (other : PyBandLike)
    (h : other.nameAttr = none ∨ other.membersAttr = none ∨
      other.startAttr = none ∨ other.endAttr = none) :
    ∃ a, Band_eq_dyn self other = Except.error a := by
  obtain ⟨ib, na, ma, sa, ea⟩ := other
  cases na <;> cases ma <;> cases sa <;> cases ea <;>
    simp_all [Band_eq_dyn]

/-- C9 witness: comparing the Beatles with an attribute-less non-Band
object raises an `AttributeError`. -/
theorem band_eq_nonband_attribute_error_witness :
    ∃ a, Band_eq_dyn theBeatles ⟨false, none, none, none, none⟩ = Except.error a :=
  band_eq_nonband_attribute_error theBeatles ⟨false, none, none, none, none⟩ (Or.inl rfl)

/-- C10: a `Singer` built with a non-`Vocals` vocals argument, or a
`Songwriter` built with a non-`Instrument` instrument argument
(musician.py lines 236-238 and 285-287), silently stores `None` in the
specialization field, and the display string then omits the
`", <kind>"` suffix entirely, coinciding with the plain display. -/
theorem enum_argument_fallback :
    (∀ (junk : PyArg) (nameArg : PyArg) (ibm : Bool),
      Singer_init (.nonVal junk) nameArg ibm = .singer (name_setter nameArg) ibm none ∧
      Songwriter_init (.nonVal junk) nameArg ibm =
        .songwriter (name_setter nameArg) ibm none)
  ∧ (∀ (n : PyStr) (ibm : Bool),
      musician_str (.singer n ibm none) = musician_str (.plain n ibm) ∧
      musician_str (.songwriter n ibm none) = musician_str (.plain n ibm)) := by
  refine ⟨fun junk nameArg ibm => ⟨rfl, rfl⟩, fun n ibm => ⟨?_, ?_⟩⟩ <;>
    simp [musician_str, vocalsSuffix, instrumentSuffix]
